import Mathlib

/-!
Verification development for the workload-variant-autoscaler repository.

The Go sources are shallowly embedded:
* `float64` values are modelled by `GoFloat`: either an exact rational or one
  of the IEEE special values NaN / +Inf / -Inf.  Rounding of finite values to
  binary floating point is not modelled; none of the properties below depend
  on it.
* Go maps with string keys are modelled by association lists; indexing a
  missing key yields the zero value `""`, as in Go.
* Effects (the Kubernetes client, the Prometheus API, `os.Getenv`,
  `time.Now()`) are threaded as explicit arguments; a Go function returning
  `(T, error)` becomes a Lean function returning `T × Option String`.

The repository snapshot contains two generations of
`internal/utils/utils.go` (and of the API types) concatenated in one file.
Definitions from the first generation live in namespace `WVA.V1`
(`Status.CurrentAlloc`, per-variant `EnableScaleToZero`), definitions from
the second generation in namespace `WVA.V2` (`Status.CurrentAllocs`,
`Status.Load`, `VariantID`).  Code shared verbatim by both generations is
embedded once, in namespace `WVA`.
-/

namespace WVA

/-- Model of a Go `float64`: an exact rational, or NaN, or a signed infinity.
(Binary rounding is not modelled; the embedded code only compares, sanitizes
and formats these values.) -/
inductive GoFloat where
  | finite (q : ℚ)
  | nan
  | posInf
  | negInf
deriving DecidableEq, Repr

/-- `math.IsNaN`. -/
def GoFloat.isNaN : GoFloat → Bool
  | .nan => true
  | _ => false

/-- `math.IsInf(x, 0)`. -/
def GoFloat.isInf : GoFloat → Bool
  | .posInf => true
  | .negInf => true
  | _ => false

/-- Exact product of two rationals, written with `mkRat` so that it evaluates
by kernel reduction on concrete inputs (equal to `a * b`, see
`ratMul_eq_mul`). -/
def ratMul (a b : ℚ) : ℚ := mkRat (a.num * b.num) (a.den * b.den)

/-- Multiplication on `GoFloat`, with the IEEE special-value rules used by Go
for the products appearing in the sources (`value * 1000`,
`replicas * cost`). -/
def GoFloat.mul : GoFloat → GoFloat → GoFloat
  | .nan, _ => .nan
  | _, .nan => .nan
  | .finite a, .finite b => .finite (ratMul a b)
  | .posInf, .posInf => .posInf
  | .posInf, .negInf => .negInf
  | .negInf, .posInf => .negInf
  | .negInf, .negInf => .posInf
  | .posInf, .finite b => if b = 0 then .nan else if 0 < b then .posInf else .negInf
  | .negInf, .finite b => if b = 0 then .nan else if 0 < b then .negInf else .posInf
  | .finite a, .posInf => if a = 0 then .nan else if 0 < a then .posInf else .negInf
  | .finite a, .negInf => if a = 0 then .nan else if 0 < a then .negInf else .posInf

/-- Go `int(x)` conversion of a `float64`: truncation toward zero.  In the
embedded code this is only ever applied to sanitized (finite) values. -/
def goInt (x : GoFloat) : Int :=
  match x with
  | .finite q => Int.tdiv q.num (q.den : Int)
  | _ => 0

/-- Model of a Go `map[string]string`: an association list with distinct
keys. -/
abbrev StrMap := List (String × String)

/-- Go map indexing `m[k]`: the stored value, or the zero value `""` when the
key is absent. -/
def mapGet (m : StrMap) (k : String) : String :=
  match m.find? (fun p => p.1 == k) with
  | some p => p.2
  | none => ""

def isDigit (c : Char) : Bool := '0' ≤ c && c ≤ '9'

def digitsToNat (cs : List Char) : Nat :=
  cs.foldl (fun a c => a * 10 + (c.toNat - '0'.toNat)) 0

/-- Split a leading `+` or `-` sign; returns (isNegative, remainder). -/
def stripSign : List Char → Bool × List Char
  | '+' :: r => (false, r)
  | '-' :: r => (true, r)
  | r => (false, r)

/-- Parse an exponent suffix (after the `e`/`E` marker): an optional sign and
one or more digits, consuming the whole remainder. -/
def parseExp (cs : List Char) : Option Int :=
  let p := stripSign cs
  let ds := p.2.takeWhile isDigit
  let rest := p.2.dropWhile isDigit
  if ds.isEmpty || !rest.isEmpty then none
  else some (if p.1 then -(digitsToNat ds : Int) else (digitsToNat ds : Int))

/-- Exact rational value of a parsed decimal mantissa and exponent:
`±(intDigits.fracDigits) * 10 ^ exp`, written with `mkRat` so that it
evaluates by kernel reduction on concrete inputs. -/
def decToRat (neg : Bool) (intDigits fracDigits : List Char) (exp : Int) : ℚ :=
  let mant : Int := Int.ofNat (digitsToNat (intDigits ++ fracDigits))
  let signedMant : Int := if neg then -mant else mant
  let scale : Int := exp - (fracDigits.length : Int)
  if 0 ≤ scale then mkRat (signedMant * Int.ofNat (10 ^ scale.toNat)) 1
  else mkRat signedMant (10 ^ (-scale).toNat)

/-- Model of `strconv.ParseFloat(s, 32)`: `none` is a parse error.  Accepts an
optional sign, a decimal mantissa with optional fraction and optional decimal
exponent, and the special values `inf`, `infinity` (optionally signed) and
`nan` (unsigned), all case-insensitive, exactly as Go's `special` helper does.
Finite results are kept exact: rounding to `float32` and range overflow to
infinity are not modelled (no property below depends on them), and Go's
hexadecimal floats and digit-group underscores are not modelled. -/
def parseFloat (s : String) : Option GoFloat :=
  let cs := s.data
  if cs.map Char.toLower = "nan".data then some GoFloat.nan
  else
    let p := stripSign cs
    let neg := p.1
    let rest := p.2
    let low := rest.map Char.toLower
    if low = "inf".data || low = "infinity".data then
      some (if neg then GoFloat.negInf else GoFloat.posInf)
    else
      let intDigits := rest.takeWhile isDigit
      match rest.dropWhile isDigit with
      | [] =>
        if intDigits.isEmpty then none
        else some (GoFloat.finite (decToRat neg intDigits [] 0))
      | '.' :: r2 =>
        let fracDigits := r2.takeWhile isDigit
        if intDigits.isEmpty && fracDigits.isEmpty then none
        else
          match r2.dropWhile isDigit with
          | [] => some (GoFloat.finite (decToRat neg intDigits fracDigits 0))
          | e :: r4 =>
            if e = 'e' || e = 'E' then
              match parseExp r4 with
              | some ex => some (GoFloat.finite (decToRat neg intDigits fracDigits ex))
              | none => none
            else none
      | e :: r2 =>
        if (e = 'e' || e = 'E') && !intDigits.isEmpty then
          match parseExp r2 with
          | some ex => some (GoFloat.finite (decToRat neg intDigits [] ex))
          | none => none
        else none

/-- Model of `strconv.FormatFloat(x, 'f', 2, 32)` on the values the sources
format: fixed-point notation with two fractional digits.  Rounding of values
that are not exactly representable in two decimals is to nearest (the binary
artifacts that decide exact ties in Go are not modelled; no property below
formats such a value). -/
def formatF2 (x : GoFloat) : String :=
  match x with
  | .nan => "NaN"
  | .posInf => "+Inf"
  | .negInf => "-Inf"
  | .finite q =>
    -- 100·|q| = (100·|q.num|) / q.den exactly; its nearest integer is
    -- ⌊(2·(100·|q.num|) + q.den) / (2·q.den)⌋, computed here in ℕ.
    let c : Nat := (2 * (100 * q.num.natAbs) + q.den) / (2 * q.den)
    let frac : Nat := c % 100
    let body := toString (c / 100) ++ "." ++
      (if frac < 10 then "0" ++ toString frac else toString frac)
    if q.num < 0 then "-" ++ body else body

/-! ## internal/collector/collector.go -/

/-- `FixValue` (collector.go): zero a value that is NaN or infinite, in place;
modelled functionally. -/
def FixValue (x : GoFloat) : GoFloat :=
  if x.isNaN || x.isInf then .finite 0 else x

/-- `CheckValue` (utils.go): true when a value is neither NaN nor infinite. -/
def CheckValue (x : GoFloat) : Bool :=
  !(x.isNaN || x.isInf)

/-- `LoadProfile` of the VariantAutoscaling API: decimal strings. -/
structure LoadProfile where
  ArrivalRate : String
  AvgInputTokens : String
  AvgOutputTokens : String
deriving DecidableEq, Repr

/-- `Allocation` of the first-generation VariantAutoscaling API, as populated
by `AddMetricsToOptStatus` (collector.go). -/
structure Allocation where
  Accelerator : String
  NumReplicas : Int
  MaxBatch : Int
  VariantCost : String
  ITLAverage : String
  TTFTAverage : String
  Load : LoadProfile
deriving DecidableEq, Repr

/-- The zero value `Allocation{}` returned by the error paths of
`AddMetricsToOptStatus`. -/
def Allocation.empty : Allocation :=
  { Accelerator := "", NumReplicas := 0, MaxBatch := 0, VariantCost := "",
    ITLAverage := "", TTFTAverage := "",
    Load := { ArrivalRate := "", AvgInputTokens := "", AvgOutputTokens := "" } }

/-- Outcome of one Prometheus instant query: either an error from the API, or
a vector of sample values.  (The queries in collector.go always receive
vector-typed values; warnings are only logged and are not modelled.) -/
abbrev QueryResult := Except String (List GoFloat)

/-- `vec[0].Value` when the vector is non-empty, otherwise the initial `0.0`
of the surrounding Go code. -/
def headValue (vec : List GoFloat) : GoFloat :=
  match vec with
  | [] => .finite 0
  | v :: _ => v

/-- `AddMetricsToOptStatus` (collector.go).  The Prometheus API is modelled by
the outcomes of the four queries it issues, in source order: arrival rate,
average decode tokens, average waiting time, average ITL.  The deployment
contributes `*deployment.Spec.Replicas`; the VariantAutoscaling contributes
its labels.  A failing arrival or token query returns the zero `Allocation`
and the error; a failing wait or ITL query is logged and the value stays `0`.
`maxBatch` is the hard-coded `256`. -/
def AddMetricsToOptStatus
    (arrivalRes avgTokRes waitRes itlRes : QueryResult)
    (deployReplicas : Int) (labels : StrMap) (acceleratorCostVal : GoFloat) :
    Allocation × Option String :=
  match arrivalRes with
  | .error e => (Allocation.empty, some e)
  | .ok arrivalVec =>
    let arrivalVal := FixValue (headValue arrivalVec)
    let avgInputTokens : GoFloat := .finite 0
    match avgTokRes with
    | .error e => (Allocation.empty, some e)
    | .ok tokVec =>
      let avgOutputTokens := FixValue (headValue tokVec)
      let ttftAverageTime := FixValue (match waitRes with
        | .error _ => .finite 0
        | .ok waitVec =>
          match waitVec with
          | [] => .finite 0
          | v :: _ => GoFloat.mul v (.finite 1000))
      let itlAverage := FixValue (match itlRes with
        | .error _ => .finite 0
        | .ok itlVec =>
          match itlVec with
          | [] => .finite 0
          | v :: _ => GoFloat.mul v (.finite 1000))
      let numReplicas := deployReplicas
      let acc := mapGet labels "inference.optimization/acceleratorName"
      let discoveredCost := GoFloat.mul (.finite (deployReplicas : ℚ)) acceleratorCostVal
      let maxBatch : Int := 256
      ({ Accelerator := acc,
         NumReplicas := numReplicas,
         MaxBatch := maxBatch,
         VariantCost := formatF2 discoveredCost,
         TTFTAverage := formatF2 ttftAverageTime,
         ITLAverage := formatF2 itlAverage,
         Load := { ArrivalRate := formatF2 arrivalVal,
                   AvgInputTokens := formatF2 avgInputTokens,
                   AvgOutputTokens := formatF2 avgOutputTokens } }, none)

/-! ## internal/utils/utils.go — inferno system data types (pkg/config)

The `infernoConfig` structures are reproduced field-for-field; the Go nesting
`systemData.Spec.Accelerators.Spec` (a struct holding one slice) is flattened
to one list per component. -/

/-- `infernoConfig.PowerSpec` — present in the Go struct, not currently used. -/
structure PowerSpec where
deriving DecidableEq, Repr

/-- `infernoConfig.AcceleratorSpec`.  `Type_` renders the Go field `Type`. -/
structure AcceleratorSpec where
  Name : String
  Type_ : String
  Multiplicity : Int
  Power : PowerSpec
  Cost : GoFloat
deriving DecidableEq, Repr

/-- `infernoConfig.DecodeParms`. -/
structure DecodeParms where
  Alpha : GoFloat
  Beta : GoFloat
deriving DecidableEq, Repr

/-- `infernoConfig.PrefillParms`. -/
structure PrefillParms where
  Gamma : GoFloat
  Delta : GoFloat
deriving DecidableEq, Repr

/-- `infernoConfig.ModelAcceleratorPerfData`. -/
structure ModelAcceleratorPerfData where
  Name : String
  Acc : String
  AccCount : Int
  MaxBatchSize : Int
  DecodeParms : DecodeParms
  PrefillParms : PrefillParms
deriving DecidableEq, Repr

/-- `infernoConfig.ModelTarget`. -/
structure ModelTarget where
  Model : String
  SLO_ITL : GoFloat
  SLO_TTFT : GoFloat
deriving DecidableEq, Repr

/-- `infernoConfig.ServiceClassSpec`. -/
structure ServiceClassSpec where
  Name : String
  Priority : Int
  ModelTargets : List ModelTarget
deriving DecidableEq, Repr

/-- `infernoConfig.ServerLoadSpec`. -/
structure ServerLoadSpec where
  ArrivalRate : GoFloat
  AvgInTokens : Int
  AvgOutTokens : Int
deriving DecidableEq, Repr

/-- `infernoConfig.AllocationData`. -/
structure AllocationData where
  Accelerator : String
  NumReplicas : Int
  MaxBatch : Int
  Cost : GoFloat
  ITLAverage : GoFloat
  TTFTAverage : GoFloat
  Load : ServerLoadSpec
deriving DecidableEq, Repr

/-- The zero value `infernoConfig.AllocationData{}`. -/
def AllocationData.zero : AllocationData :=
  { Accelerator := "", NumReplicas := 0, MaxBatch := 0, Cost := .finite 0,
    ITLAverage := .finite 0, TTFTAverage := .finite 0,
    Load := { ArrivalRate := .finite 0, AvgInTokens := 0, AvgOutTokens := 0 } }

/-- `infernoConfig.ServerSpec`. -/
structure ServerSpec where
  Name : String
  Class : String
  Model : String
  KeepAccelerator : Bool
  MinNumReplicas : Int
  MaxBatchSize : Int
  CurrentAlloc : AllocationData
  DesiredAlloc : AllocationData
deriving DecidableEq, Repr

/-- `infernoConfig.OptimizerSpec` (only the field the sources set). -/
structure OptimizerSpec where
  Unlimited : Bool
deriving DecidableEq, Repr

/-- `infernoConfig.AcceleratorCount` (capacity data, initialised empty). -/
structure AcceleratorCount where
  Acc : String
  Count : Int
deriving DecidableEq, Repr

/-- `infernoConfig.SystemData`, flattened: `Accelerators` is
`Spec.Accelerators.Spec`, `PerfData` is `Spec.Models.PerfData`,
`ServiceClasses` is `Spec.ServiceClasses.Spec`, `Servers` is
`Spec.Servers.Spec`, `Capacity` is `Spec.Capacity.Count`. -/
structure SystemData where
  Accelerators : List AcceleratorSpec
  PerfData : List ModelAcceleratorPerfData
  ServiceClasses : List ServiceClassSpec
  Servers : List ServerSpec
  Optimizer : OptimizerSpec
  Capacity : List AcceleratorCount
deriving DecidableEq, Repr

/-- `interfaces.ServiceClassEntry` as unmarshalled from the service-class
ConfigMap YAML. -/
structure ServiceClassEntry where
  Model : String
  SLOTPOT : GoFloat
  SLOTTFT : GoFloat
deriving DecidableEq, Repr

/-- `interfaces.ServiceClass`. -/
structure ServiceClass where
  Name : String
  Priority : Int
  Data : List ServiceClassEntry
deriving DecidableEq, Repr

/-- One iteration of the accelerator loop of `CreateSystemData`: parse the
configured `cost`; on failure skip the accelerator (a logged warning in Go),
otherwise build its `AcceleratorSpec` with `Type` from `device` and
multiplicity 1. -/
def accelOf (kv : String × StrMap) : Option AcceleratorSpec :=
  match parseFloat (mapGet kv.2 "cost") with
  | none => none
  | some cost => some
      { Name := kv.1, Type_ := mapGet kv.2 "device", Multiplicity := 1,
        Power := {}, Cost := cost }

/-- `CreateSystemData` (utils.go, identical in both generations).  Go map
iteration is modelled by iteration over the association lists.
`yaml.Unmarshal` is an external library call; its outcome per service-class
entry is modelled as a pre-parsed `Option ServiceClass` (`none` is a parse
failure, which the source skips with a warning).  An accelerator whose
`cost` value does not parse is skipped with a warning; the function has no
error return. -/
def CreateSystemData
    (acceleratorCm : List (String × StrMap))
    (serviceClassCm : List (String × Option ServiceClass)) : SystemData :=
  { Accelerators := acceleratorCm.filterMap accelOf,
    PerfData := [],
    ServiceClasses := serviceClassCm.filterMap (fun kv =>
      match kv.2 with
      | none => none
      | some sc => some
          { Name := sc.Name, Priority := sc.Priority,
            ModelTargets := sc.Data.map (fun entry =>
              { Model := entry.Model, SLO_ITL := entry.SLOTPOT,
                SLO_TTFT := entry.SLOTTFT }) }),
    Servers := [],
    Optimizer := { Unlimited := true },
    Capacity := [] }

/-- `FullName` (utils.go). -/
def FullName (name ns : String) : String :=
  name ++ ":" ++ ns

/-- The sanitizing parse repeated throughout `AddServerInfoToSystemData`:
`if v, err = strconv.ParseFloat(s, 32); err != nil || !CheckValue(v) { v = 0 }`. -/
def sanitizeParsed (s : String) : GoFloat :=
  match parseFloat s with
  | none => .finite 0
  | some v => if CheckValue v then v else .finite 0

/-- `PerfParms` of the VariantAutoscaling API (identical in both API
generations): coefficient maps keyed by `"alpha"`/`"beta"` and
`"gamma"`/`"delta"`. -/
structure PerfParms where
  DecodeParms : StrMap
  PrefillParms : StrMap
deriving DecidableEq, Repr

/-- Shared body of the two profile adders: validate and parse the four
coefficients of a `PerfParms`.  Returns the parsed values or the error the Go
code returns at the corresponding early `return`. -/
def extractPerfParms (pp : PerfParms) :
    Except String (GoFloat × GoFloat × GoFloat × GoFloat) :=
  let decodeParms := pp.DecodeParms
  if decodeParms.length < 2 then
    .error "length of decodeParms should be 2"
  else
    match parseFloat (mapGet decodeParms "alpha") with
    | none => .error ("strconv.ParseFloat: parsing alpha: invalid syntax")
    | some alpha =>
      match parseFloat (mapGet decodeParms "beta") with
      | none => .error ("strconv.ParseFloat: parsing beta: invalid syntax")
      | some beta =>
        let prefillParms := pp.PrefillParms
        if prefillParms.length < 2 then
          .error "length of prefillParms should be 2"
        else
          match parseFloat (mapGet prefillParms "gamma") with
          | none => .error ("strconv.ParseFloat: parsing gamma: invalid syntax")
          | some gamma =>
            match parseFloat (mapGet prefillParms "delta") with
            | none => .error ("strconv.ParseFloat: parsing delta: invalid syntax")
            | some delta => .ok (alpha, beta, gamma, delta)

namespace V1

/-- `AcceleratorProfile` of the first-generation API. -/
structure AcceleratorProfile where
  Acc : String
  AccCount : Int
  PerfParms : PerfParms
  MaxBatchSize : Int
deriving DecidableEq, Repr

/-- `AddModelAcceleratorProfileToSystemData` (first-generation utils.go):
validates and parses the four coefficients, then appends one
`ModelAcceleratorPerfData` entry; any early error leaves the system data
untouched. -/
def AddModelAcceleratorProfileToSystemData
    (sd : SystemData) (modelName : String)
    (modelAcceleratorProfile : AcceleratorProfile) :
    SystemData × Option String :=
  match extractPerfParms modelAcceleratorProfile.PerfParms with
  | .error e => (sd, some e)
  | .ok (alpha, beta, gamma, delta) =>
    ({ sd with PerfData := sd.PerfData ++
        [{ Name := modelName,
           Acc := modelAcceleratorProfile.Acc,
           AccCount := modelAcceleratorProfile.AccCount,
           MaxBatchSize := modelAcceleratorProfile.MaxBatchSize,
           DecodeParms := { Alpha := alpha, Beta := beta },
           PrefillParms := { Gamma := gamma, Delta := delta } }] }, none)

/-- `VariantAutoscalingSpec` of the first-generation API (the fields the
embedded functions read).  `ScaleToZeroPodRetentionPeriod` is a duration in
nanoseconds. -/
structure VariantAutoscalingSpec where
  ModelID : String
  ModelProfileAccelerators : List AcceleratorProfile
  EnableScaleToZero : Option Bool
  ScaleToZeroPodRetentionPeriod : Option Int
deriving DecidableEq, Repr

/-- `VariantAutoscalingStatus` of the first-generation API: one current
allocation per variant. -/
structure VariantAutoscalingStatus where
  CurrentAlloc : Allocation
deriving DecidableEq, Repr

/-- `VariantAutoscaling` of the first-generation API (metadata restricted to
the fields the embedded functions read). -/
structure VariantAutoscaling where
  Name : String
  Namespace : String
  Labels : StrMap
  Spec : VariantAutoscalingSpec
  Status : VariantAutoscalingStatus
deriving DecidableEq, Repr

/-- `strings.EqualFold` on the ASCII strings compared by the sources
(simple case folding, written over the character lists so that it evaluates
by kernel reduction). -/
def equalFold (a b : String) : Bool :=
  a.data.map Char.toLower == b.data.map Char.toLower

/-- `IsScaleToZeroEnabled` (first-generation utils.go): the per-model
`EnableScaleToZero` field wins when set; otherwise the global
`WVA_SCALE_TO_ZERO` environment variable (modelled as the explicit argument
`envScaleToZero`) is compared case-insensitively with `"true"`. -/
def IsScaleToZeroEnabled (va : VariantAutoscaling) (envScaleToZero : String) : Bool :=
  match va.Spec.EnableScaleToZero with
  | some b => b
  | none => equalFold envScaleToZero "true"

/-- `GetScaleToZeroRetentionPeriod` (first-generation utils.go). -/
def GetScaleToZeroRetentionPeriod (va : VariantAutoscaling) : Int :=
  match va.Spec.ScaleToZeroPodRetentionPeriod with
  | some d => d
  | none => 0

/-- `GetMinNumReplicas` (first-generation utils.go): 0 when scale-to-zero is
enabled for this variant, else 1. -/
def GetMinNumReplicas (va : VariantAutoscaling) (envScaleToZero : String) : Int :=
  if IsScaleToZeroEnabled va envScaleToZero then 0 else 1

/-- The `for _, ap := range va.Spec.ModelProfile.Accelerators` loop of
`AddServerInfoToSystemData`: max batch size of the first profile whose `Acc`
matches the accelerator label, else the initial 0. -/
def findMaxBatch : List AcceleratorProfile → String → Int
  | [], _ => 0
  | ap :: rest, accName =>
    if ap.Acc == accName then ap.MaxBatchSize else findMaxBatch rest accName

/-- The `ServerSpec` built by the body of `AddServerInfoToSystemData`
(first-generation utils.go): sanitized load and allocation numbers of
`Status.CurrentAlloc`, minimum-replica floor from `GetMinNumReplicas`, max
batch size from the profile matching the accelerator label. -/
def mkServerSpec (va : VariantAutoscaling) (className envScaleToZero : String) :
    ServerSpec :=
  let arrivalRate := sanitizeParsed va.Status.CurrentAlloc.Load.ArrivalRate
  let avgOutputTokens := sanitizeParsed va.Status.CurrentAlloc.Load.AvgOutputTokens
  let avgInputTokens := sanitizeParsed va.Status.CurrentAlloc.Load.AvgInputTokens
  let serverLoadSpec : ServerLoadSpec :=
    { ArrivalRate := arrivalRate, AvgInTokens := goInt avgInputTokens,
      AvgOutTokens := goInt avgOutputTokens }
  let cost := sanitizeParsed va.Status.CurrentAlloc.VariantCost
  let itlAverage := sanitizeParsed va.Status.CurrentAlloc.ITLAverage
  let ttftAverage := sanitizeParsed va.Status.CurrentAlloc.TTFTAverage
  let allocationData : AllocationData :=
    { Accelerator := va.Status.CurrentAlloc.Accelerator,
      NumReplicas := va.Status.CurrentAlloc.NumReplicas,
      MaxBatch := va.Status.CurrentAlloc.MaxBatch,
      Cost := cost, ITLAverage := itlAverage, TTFTAverage := ttftAverage,
      Load := serverLoadSpec }
  let minNumReplicas := GetMinNumReplicas va envScaleToZero
  let accName := mapGet va.Labels "inference.optimization/acceleratorName"
  let maxBatchSize := findMaxBatch va.Spec.ModelProfileAccelerators accName
  { Name := FullName va.Name va.Namespace, Class := className,
    Model := va.Spec.ModelID, KeepAccelerator := true,
    MinNumReplicas := minNumReplicas,
    MaxBatchSize := if maxBatchSize > 0 then maxBatchSize else 0,
    CurrentAlloc := allocationData, DesiredAlloc := AllocationData.zero }

/-- `AddServerInfoToSystemData` (first-generation utils.go): appends the
`ServerSpec` built by `mkServerSpec`.  This generation has no error path. -/
def AddServerInfoToSystemData
    (sd : SystemData) (va : VariantAutoscaling) (className : String)
    (envScaleToZero : String) : SystemData × Option String :=
  ({ sd with Servers := sd.Servers ++ [mkServerSpec va className envScaleToZero] },
   none)

end V1

namespace V2

/-- `VariantProfile` of the second-generation API. -/
structure VariantProfile where
  PerfParms : PerfParms
  MaxBatchSize : Int
deriving DecidableEq, Repr

/-- `AddVariantProfileToSystemData` (second-generation utils.go): validates
and parses the four coefficients of the variant profile, then appends one
`ModelAcceleratorPerfData` entry; any early error leaves the system data
untouched. -/
def AddVariantProfileToSystemData
    (sd : SystemData) (modelName accelerator : String) (acceleratorCount : Int)
    (variantProfile : VariantProfile) : SystemData × Option String :=
  match extractPerfParms variantProfile.PerfParms with
  | .error e => (sd, some e)
  | .ok (alpha, beta, gamma, delta) =>
    ({ sd with PerfData := sd.PerfData ++
        [{ Name := modelName,
           Acc := accelerator,
           AccCount := acceleratorCount,
           MaxBatchSize := variantProfile.MaxBatchSize,
           DecodeParms := { Alpha := alpha, Beta := beta },
           PrefillParms := { Gamma := gamma, Delta := delta } }] }, none)

/-- `Allocation` of the second-generation API: one entry of
`Status.CurrentAllocs` (aggregate load and latency live on the status). -/
structure Allocation where
  VariantID : String
  Accelerator : String
  NumReplicas : Int
  MaxBatch : Int
  VariantCost : String
deriving DecidableEq, Repr

/-- `VariantAutoscalingStatus` of the second-generation API (the fields the
embedded functions read). -/
structure VariantAutoscalingStatus where
  Load : LoadProfile
  ITLAverage : String
  TTFTAverage : String
  CurrentAllocs : List Allocation
deriving DecidableEq, Repr

/-- `VariantAutoscalingSpec` of the second-generation API (the fields the
embedded functions read; this generation has no scale-to-zero fields). -/
structure VariantAutoscalingSpec where
  ModelID : String
  VariantID : String
  Accelerator : String
  AcceleratorCount : Int
  VariantProfile : VariantProfile
deriving DecidableEq, Repr

/-- `VariantAutoscaling` of the second-generation API. -/
structure VariantAutoscaling where
  Name : String
  Namespace : String
  Labels : StrMap
  Spec : VariantAutoscalingSpec
  Status : VariantAutoscalingStatus
deriving DecidableEq, Repr

/-- `AddServerInfoToSystemData` (second-generation utils.go): sanitizes the
status-level load and latency numbers, fails when `Status.CurrentAllocs` is
empty, otherwise uses its first entry and appends one `ServerSpec`.  The
minimum-replica floor of this generation reads only the global
`WVA_SCALE_TO_ZERO` environment variable (modelled as `envScaleToZero`),
compared case-sensitively with `"true"`. -/
def AddServerInfoToSystemData
    (sd : SystemData) (va : VariantAutoscaling) (className : String)
    (envScaleToZero : String) : SystemData × Option String :=
  let arrivalRate := sanitizeParsed va.Status.Load.ArrivalRate
  let avgOutputTokens := sanitizeParsed va.Status.Load.AvgOutputTokens
  let avgInputTokens := sanitizeParsed va.Status.Load.AvgInputTokens
  let serverLoadSpec : ServerLoadSpec :=
    { ArrivalRate := arrivalRate, AvgInTokens := goInt avgInputTokens,
      AvgOutTokens := goInt avgOutputTokens }
  match va.Status.CurrentAllocs with
  | [] => (sd, some ("no current allocations found for variant " ++ va.Name))
  | currentAlloc :: _ =>
    let cost := sanitizeParsed currentAlloc.VariantCost
    let itlAverage := sanitizeParsed va.Status.ITLAverage
    let ttftAverage := sanitizeParsed va.Status.TTFTAverage
    let allocationData : AllocationData :=
      { Accelerator := currentAlloc.Accelerator,
        NumReplicas := currentAlloc.NumReplicas,
        MaxBatch := currentAlloc.MaxBatch,
        Cost := cost, ITLAverage := itlAverage, TTFTAverage := ttftAverage,
        Load := serverLoadSpec }
    let minNumReplicas : Int := if envScaleToZero == "true" then 0 else 1
    let serverSpec : ServerSpec :=
      { Name := FullName va.Name va.Namespace, Class := className,
        Model := va.Spec.ModelID, KeepAccelerator := true,
        MinNumReplicas := minNumReplicas,
        MaxBatchSize := if va.Spec.VariantProfile.MaxBatchSize > 0
          then va.Spec.VariantProfile.MaxBatchSize else 0,
        CurrentAlloc := allocationData, DesiredAlloc := AllocationData.zero }
    ({ sd with Servers := sd.Servers ++ [serverSpec] }, none)

end V2

/-! ## CreateOptimizedAlloc (utils.go) and the optimizer engine -/

/-- `OptimizedAlloc` of the VariantAutoscaling API.  `metav1.Time` is
modelled as an integer timestamp. -/
structure OptimizedAlloc where
  LastRunTime : Int
  Accelerator : String
  NumReplicas : Int
deriving DecidableEq, Repr

/-- `infernoConfig.AllocationSolution`: the `Spec` map from server full name
to allocation data. -/
abbrev AllocationSolution := List (String × AllocationData)

/-- Go map lookup `allocationSolution.Spec[serverName]` (comma-ok form). -/
def solutionFind : AllocationSolution → String → Option AllocationData
  | [], _ => none
  | p :: rest, k => if p.1 == k then some p.2 else solutionFind rest k

/-- `CreateOptimizedAlloc` (utils.go): looks the server up in the allocation
solution by full name; when absent, the Go code returns the error
`server <name> not found`, modelled as `none`.  `now` models the `time.Now()`
read stamped into `LastRunTime`. -/
def CreateOptimizedAlloc (name ns : String)
    (allocationSolution : AllocationSolution) (now : Int) :
    Option OptimizedAlloc :=
  match solutionFind allocationSolution (FullName name ns) with
  | none => none
  | some allocationData =>
    some { LastRunTime := now,
           Accelerator := allocationData.Accelerator,
           NumReplicas := allocationData.NumReplicas }

/-- Go map assignment `m[k] = v` on the association-list model: replace the
value at an existing key, else append. -/
def goMapInsert : List (String × OptimizedAlloc) → String → OptimizedAlloc →
    List (String × OptimizedAlloc)
  | [], k, v => [(k, v)]
  | p :: rest, k, v =>
    if p.1 == k then (k, v) :: rest else p :: goMapInsert rest k v

/-- The `for _, va := range vaList.Items` loop of `Optimize` (optimizer
engine): one map entry per variant for which `CreateOptimizedAlloc`
succeeds.  In the engine source the call also forwards `va.Spec.VariantID`
to a newer overload of `CreateOptimizedAlloc` whose body is the one embedded
above; the fields involved here are unchanged. -/
def optimizeLoop (sol : AllocationSolution) (now : Int) :
    List V2.VariantAutoscaling → List (String × OptimizedAlloc) →
    List (String × OptimizedAlloc)
  | [], m => m
  | va :: rest, m =>
    match CreateOptimizedAlloc va.Name va.Namespace sol now with
    | some optimizedAllocation =>
      optimizeLoop sol now rest (goMapInsert m va.Name optimizedAllocation)
    | none => optimizeLoop sol now rest m

/-- `VariantAutoscalingsEngine.Optimize`.  `engine.manager.Optimize()` and
`engine.system.GenerateSolution()` live in `pkg/manager` and `pkg/core`,
outside the sources at hand; their outcomes enter as the explicit inputs
`managerErr` (the manager's error, if any) and `allocationSolution` (`none`
models a nil solution pointer).  The returned map is an `Option` whose
`none` would model a nil Go map — the source always returns a freshly made
map, modelled as `some`. -/
def Optimize (managerErr : Option String)
    (allocationSolution : Option AllocationSolution)
    (vaList : List V2.VariantAutoscaling) (now : Int) :
    Option (List (String × OptimizedAlloc)) × Option String :=
  match managerErr with
  | some err => (some [], some err)
  | none =>
    match allocationSolution with
    | none => (some [], some "no feasible allocations found for all variants")
    | some sol =>
      if sol.length = 0 then
        (some [], some "no feasible allocations found for all variants")
      else
        (some (optimizeLoop sol now vaList []), none)

/-! ## Predicates, projections and concrete instances used by the claims -/

/-- A performance-parameter record that claim C3 describes as invalid:
fewer than two entries in one of the maps, or an `alpha`, `beta`, `gamma` or
`delta` entry that does not parse as a decimal number (a missing entry reads
as the Go zero value `""`, which does not parse). -/
def malformedPerfParms (pp : PerfParms) : Prop :=
  pp.DecodeParms.length < 2 ∨ pp.PrefillParms.length < 2 ∨
  parseFloat (mapGet pp.DecodeParms "alpha") = none ∨
  parseFloat (mapGet pp.DecodeParms "beta") = none ∨
  parseFloat (mapGet pp.PrefillParms "gamma") = none ∨
  parseFloat (mapGet pp.PrefillParms "delta") = none

/-- The fields of an `OptimizedAlloc` other than the `LastRunTime`
timestamp. -/
def coreOfAlloc (oa : OptimizedAlloc) : String × Int :=
  (oa.Accelerator, oa.NumReplicas)

/-- An optimized-allocation map with the `LastRunTime` timestamps erased. -/
def coreOfMap (m : List (String × OptimizedAlloc)) : List (String × String × Int) :=
  m.map (fun p => (p.1, coreOfAlloc p.2))

/-- The result of `Optimize` with the `LastRunTime` timestamps erased. -/
def coreOfResult (r : Option (List (String × OptimizedAlloc)) × Option String) :
    Option (List (String × String × Int)) × Option String :=
  (r.1.map coreOfMap, r.2)

/-- A sample second-generation variant profile (coefficients as in the repo's
examples). -/
def sampleVariantProfile : V2.VariantProfile :=
  { PerfParms := { DecodeParms := [("alpha", "10"), ("beta", "2")],
                   PrefillParms := [("gamma", "1"), ("delta", "0.01")] },
    MaxBatchSize := 4 }

/-- A sample second-generation variant with one current allocation. -/
def vaSample : V2.VariantAutoscaling :=
  { Name := "vllm", Namespace := "default",
    Labels := [("inference.optimization/acceleratorName", "A100")],
    Spec := { ModelID := "default/default", VariantID := "default/default-A100-1",
              Accelerator := "A100", AcceleratorCount := 1,
              VariantProfile := sampleVariantProfile },
    Status := { Load := { ArrivalRate := "10.50", AvgInputTokens := "0.00",
                          AvgOutputTokens := "150.00" },
                ITLAverage := "50.00", TTFTAverage := "500.00",
                CurrentAllocs := [{ VariantID := "default/default-A100-1",
                                    Accelerator := "A100", NumReplicas := 2,
                                    MaxBatch := 256, VariantCost := "80.00" }] } }

/-- A sample second-generation variant with no current allocations. -/
def vaNoAllocs : V2.VariantAutoscaling :=
  { vaSample with Status := { vaSample.Status with CurrentAllocs := [] } }

/-- A sample allocation decided by the solver for `vaSample`. -/
def adSample : AllocationData :=
  { AllocationData.zero with Accelerator := "A100", NumReplicas := 3 }

/-- A sample first-generation status (decimal strings as written back by the
collector). -/
def v1StatusSample : V1.VariantAutoscalingStatus :=
  { CurrentAlloc :=
      { Accelerator := "A100", NumReplicas := 2, MaxBatch := 256,
        VariantCost := "80.00", ITLAverage := "50.00", TTFTAverage := "500.00",
        Load := { ArrivalRate := "10.50", AvgInputTokens := "0.00",
                  AvgOutputTokens := "150.00" } } }

/-- A first-generation variant whose per-model `EnableScaleToZero` is set to
`false` (overriding any global setting). -/
def vaV1Override : V1.VariantAutoscaling :=
  { Name := "vllm", Namespace := "default",
    Labels := [("inference.optimization/acceleratorName", "A100")],
    Spec := { ModelID := "default/default",
              ModelProfileAccelerators := [],
              EnableScaleToZero := some false,
              ScaleToZeroPodRetentionPeriod := none },
    Status := v1StatusSample }

/-- A first-generation variant that leaves `EnableScaleToZero` unset and so
falls back to the global setting. -/
def vaV1Fallback : V1.VariantAutoscaling :=
  { vaV1Override with
    Spec := { vaV1Override.Spec with EnableScaleToZero := none } }

/-- A sample accelerator ConfigMap: one entry with a parseable cost, one with
an unparseable cost. -/
def accListW : List (String × StrMap) :=
  [("A100", [("cost", "40.00"), ("device", "NVIDIA-A100")]),
   ("BAD", [("cost", "not-a-number"), ("device", "X")])]

/-! ## Helper lemmas -/

/-- Whatever the input string, the sanitizing parse produces a finite value. -/
lemma checkValue_sanitizeParsed (s : String) : CheckValue (sanitizeParsed s) = true := by
  unfold sanitizeParsed
  cases h : parseFloat s with
  | none => decide
  | some v =>
    cases v <;> simp [CheckValue, GoFloat.isNaN, GoFloat.isInf]

/-! ## C1 -/

/-- C1: when the manager's optimization step succeeds but the generated
allocation solution is nil or has an empty server map, `Optimize` returns the
explicit error `no feasible allocations found for all variants` together with
an empty (but non-nil) map of optimized allocations. -/
theorem optimize_empty_solution_fails
    (allocationSolution : Option AllocationSolution)
    (vaList : List V2.VariantAutoscaling) (now : Int)
    (h : allocationSolution = none ∨
         ∃ sol, allocationSolution = some sol ∧ sol.length = 0) :
    Optimize none allocationSolution vaList now =
      (some [], some "no feasible allocations found for all variants") := by
  rcases h with h | ⟨sol, h, hlen⟩
  · subst h
    simp [Optimize]
  · subst h
    simp [Optimize, hlen]

/-- Witness for C1 at the nil solution. -/
theorem optimize_empty_solution_fails_witness :
    Optimize none none [] 0 =
      (some [], some "no feasible allocations found for all variants") :=
  optimize_empty_solution_fails none [] 0 (Or.inl rfl)

/-! ## C9 -/

/-- C9: `Optimize` never returns a nil allocation map — every return path,
including the manager-failure path and the empty-solution path, carries a
non-nil (possibly empty) map. -/
theorem optimize_returns_non_nil_map (managerErr : Option String)
    (allocationSolution : Option AllocationSolution)
    (vaList : List V2.VariantAutoscaling) (now : Int) :
    (Optimize managerErr allocationSolution vaList now).1 ≠ none := by
  cases managerErr with
  | some e => simp [Optimize]
  | none =>
    cases allocationSolution with
    | none => simp [Optimize]
    | some sol =>
      by_cases h : sol.length = 0 <;> simp [Optimize, h]

/-! ## C6 -/

/-- C6: when every Prometheus query returns an empty vector, the collection
succeeds and the returned allocation's arrival rate, average input tokens,
average output tokens, ITL average and TTFT average all read `0.00`. -/
theorem collector_empty_vectors_zero_strings
    (deployReplicas : Int) (labels : StrMap) (acceleratorCostVal : GoFloat) :
    (AddMetricsToOptStatus (.ok []) (.ok []) (.ok []) (.ok [])
        deployReplicas labels acceleratorCostVal).2 = none ∧
    (AddMetricsToOptStatus (.ok []) (.ok []) (.ok []) (.ok [])
        deployReplicas labels acceleratorCostVal).1.ITLAverage = "0.00" ∧
    (AddMetricsToOptStatus (.ok []) (.ok []) (.ok []) (.ok [])
        deployReplicas labels acceleratorCostVal).1.TTFTAverage = "0.00" ∧
    (AddMetricsToOptStatus (.ok []) (.ok []) (.ok []) (.ok [])
        deployReplicas labels acceleratorCostVal).1.Load.ArrivalRate = "0.00" ∧
    (AddMetricsToOptStatus (.ok []) (.ok []) (.ok []) (.ok [])
        deployReplicas labels acceleratorCostVal).1.Load.AvgInputTokens = "0.00" ∧
    (AddMetricsToOptStatus (.ok []) (.ok []) (.ok []) (.ok [])
        deployReplicas labels acceleratorCostVal).1.Load.AvgOutputTokens = "0.00" :=
  ⟨rfl, rfl, rfl, rfl, rfl, rfl⟩

/-! ## C5 (corrected) -/

/-- Counterexample to C5 as stated: a failing arrival-rate query does not
yield zeroed defaults and a populated allocation — the collection returns the
error together with the zero-valued `Allocation`. -/
theorem collector_query_error_fails_cex :
    (AddMetricsToOptStatus (Except.error "prometheus connection failed")
        (Except.ok []) (Except.ok []) (Except.ok []) 2
        [("inference.optimization/acceleratorName", "A100")]
        (GoFloat.finite 40)).2 = some "prometheus connection failed" ∧
    (AddMetricsToOptStatus (Except.error "prometheus connection failed")
        (Except.ok []) (Except.ok []) (Except.ok []) 2
        [("inference.optimization/acceleratorName", "A100")]
        (GoFloat.finite 40)).1 = Allocation.empty :=
  ⟨rfl, rfl⟩

/-- C5 amended: only failures of the waiting-time and ITL queries are
tolerated with zeroed defaults (the collection still succeeds and returns a
populated allocation with `0.00` averages); a failure of the arrival-rate or
of the output-token query aborts the collection for that variant, returning
the error and the zero `Allocation`. -/
theorem collector_query_error_handling :
    (∀ (arrivalVec tokVec : List GoFloat) (e1 e2 : String) (deployReplicas : Int)
       (labels : StrMap) (acceleratorCostVal : GoFloat),
       (AddMetricsToOptStatus (.ok arrivalVec) (.ok tokVec) (.error e1) (.error e2)
           deployReplicas labels acceleratorCostVal).2 = none ∧
       (AddMetricsToOptStatus (.ok arrivalVec) (.ok tokVec) (.error e1) (.error e2)
           deployReplicas labels acceleratorCostVal).1.TTFTAverage = "0.00" ∧
       (AddMetricsToOptStatus (.ok arrivalVec) (.ok tokVec) (.error e1) (.error e2)
           deployReplicas labels acceleratorCostVal).1.ITLAverage = "0.00") ∧
    (∀ (avgTokRes waitRes itlRes : QueryResult) (e : String) (deployReplicas : Int)
       (labels : StrMap) (acceleratorCostVal : GoFloat),
       AddMetricsToOptStatus (.error e) avgTokRes waitRes itlRes
           deployReplicas labels acceleratorCostVal = (Allocation.empty, some e)) ∧
    (∀ (arrivalVec : List GoFloat) (waitRes itlRes : QueryResult) (e : String)
       (deployReplicas : Int) (labels : StrMap) (acceleratorCostVal : GoFloat),
       AddMetricsToOptStatus (.ok arrivalVec) (.error e) waitRes itlRes
           deployReplicas labels acceleratorCostVal = (Allocation.empty, some e)) :=
  ⟨fun _ _ _ _ _ _ _ => ⟨rfl, rfl, rfl⟩, fun _ _ _ _ _ _ _ => rfl,
   fun _ _ _ _ _ _ _ => rfl⟩

/-! ## C4 -/

/-- C4: `FixValue` zeroes exactly the NaN and infinite values and leaves
every finite value (zero and negatives included) unchanged; `CheckValue` is
true exactly on finite values; the sanitizing parse used when load, cost, ITL
and TTFT values enter the system data zeroes unparseable and non-finite
inputs, so every such value stored in a server entry is finite. -/
theorem fixvalue_checkvalue_sanitization :
    (∀ x : GoFloat, CheckValue x = false → FixValue x = GoFloat.finite 0) ∧
    (∀ x : GoFloat, CheckValue x = true → FixValue x = x) ∧
    (∀ x : GoFloat, CheckValue x = true ↔ ∃ q : ℚ, x = GoFloat.finite q) ∧
    (∀ s : String,
       (parseFloat s = none ∨ ∃ v, parseFloat s = some v ∧ CheckValue v = false) →
       sanitizeParsed s = GoFloat.finite 0) ∧
    (∀ s : String, CheckValue (sanitizeParsed s) = true) ∧
    (∀ (sd : SystemData) (va : V2.VariantAutoscaling) (className envScaleToZero : String),
       ∀ srv ∈ ((V2.AddServerInfoToSystemData sd va className envScaleToZero).1).Servers,
         srv ∈ sd.Servers ∨
           (CheckValue srv.CurrentAlloc.Cost = true ∧
            CheckValue srv.CurrentAlloc.ITLAverage = true ∧
            CheckValue srv.CurrentAlloc.TTFTAverage = true ∧
            CheckValue srv.CurrentAlloc.Load.ArrivalRate = true)) := by
  refine ⟨?_, ?_, ?_, ?_, checkValue_sanitizeParsed, ?_⟩
  · intro x hx
    cases x <;> simp_all [CheckValue, FixValue, GoFloat.isNaN, GoFloat.isInf]
  · intro x hx
    cases x <;> simp_all [CheckValue, FixValue, GoFloat.isNaN, GoFloat.isInf]
  · intro x
    cases x <;> simp [CheckValue, GoFloat.isNaN, GoFloat.isInf]
  · intro s hs
    rcases hs with hs | ⟨v, hv, hcv⟩
    · simp [sanitizeParsed, hs]
    · simp [sanitizeParsed, hv, hcv]
  · intro sd va className envScaleToZero srv hsrv
    unfold V2.AddServerInfoToSystemData at hsrv
    cases hca : va.Status.CurrentAllocs with
    | nil => rw [hca] at hsrv; exact Or.inl hsrv
    | cons currentAlloc rest =>
      rw [hca] at hsrv
      simp only [List.mem_append, List.mem_singleton] at hsrv
      rcases hsrv with hsrv | hsrv
      · exact Or.inl hsrv
      · subst hsrv
        exact Or.inr ⟨checkValue_sanitizeParsed _, checkValue_sanitizeParsed _,
          checkValue_sanitizeParsed _, checkValue_sanitizeParsed _⟩

/-- Witness for C4: a NaN is zeroed, a finite negative value is kept, an
unparseable string sanitizes to zero. -/
theorem fixvalue_checkvalue_sanitization_witness :
    FixValue GoFloat.nan = GoFloat.finite 0 ∧
    FixValue (GoFloat.finite (mkRat (-153) 10)) = GoFloat.finite (mkRat (-153) 10) ∧
    sanitizeParsed "bogus" = GoFloat.finite 0 :=
  ⟨fixvalue_checkvalue_sanitization.1 GoFloat.nan (by decide),
   fixvalue_checkvalue_sanitization.2.1 _ (by decide),
   fixvalue_checkvalue_sanitization.2.2.2.1 "bogus" (Or.inl (by decide))⟩

/-! ## C3 -/

/-- Malformed performance parameters always fail coefficient extraction. -/
lemma extractPerfParms_malformed (pp : PerfParms) (h : malformedPerfParms pp) :
    ∃ e, extractPerfParms pp = .error e := by
  unfold extractPerfParms
  by_cases h1 : pp.DecodeParms.length < 2
  · simp [h1]
  · simp only [h1, if_false]
    cases ha : parseFloat (mapGet pp.DecodeParms "alpha") with
    | none => exact ⟨_, rfl⟩
    | some alpha =>
      cases hb : parseFloat (mapGet pp.DecodeParms "beta") with
      | none => exact ⟨_, rfl⟩
      | some beta =>
        by_cases h2 : pp.PrefillParms.length < 2
        · simp [h2]
        · simp only [h2, if_false]
          cases hg : parseFloat (mapGet pp.PrefillParms "gamma") with
          | none => exact ⟨_, rfl⟩
          | some gamma =>
            cases hd : parseFloat (mapGet pp.PrefillParms "delta") with
            | none => exact ⟨_, rfl⟩
            | some delta =>
              rcases h with h | h | h | h | h | h <;> simp_all

/-- C3: a variant profile whose decode- or prefill-parameter map has fewer
than two entries, or whose `alpha`, `beta`, `gamma` or `delta` entry does not
parse, makes the add-profile operation return an error and leaves the system
data — in particular the performance data added for other variants in the
same cycle — untouched.  Both generations of the adder behave alike. -/
theorem add_profile_rejects_malformed_perf_parms :
    (∀ (sd : SystemData) (modelName accelerator : String) (acceleratorCount : Int)
       (vp : V2.VariantProfile), malformedPerfParms vp.PerfParms →
       ∃ e, V2.AddVariantProfileToSystemData sd modelName accelerator
           acceleratorCount vp = (sd, some e)) ∧
    (∀ (sd : SystemData) (modelName : String) (ap : V1.AcceleratorProfile),
       malformedPerfParms ap.PerfParms →
       ∃ e, V1.AddModelAcceleratorProfileToSystemData sd modelName ap
           = (sd, some e)) := by
  constructor
  · intro sd modelName accelerator acceleratorCount vp h
    obtain ⟨e, he⟩ := extractPerfParms_malformed _ h
    exact ⟨e, by simp [V2.AddVariantProfileToSystemData, he]⟩
  · intro sd modelName ap h
    obtain ⟨e, he⟩ := extractPerfParms_malformed _ h
    exact ⟨e, by simp [V1.AddModelAcceleratorProfileToSystemData, he]⟩

/-- Witness for C3: a decode map with a single entry is rejected by both
adders and the system data comes back unchanged. -/
theorem add_profile_rejects_malformed_perf_parms_witness :
    ({ DecodeParms := [("alpha", "10")],
       PrefillParms := [("gamma", "1"), ("delta", "2")] } : PerfParms).DecodeParms.length < 2 ∧
    (∃ e, V2.AddVariantProfileToSystemData (CreateSystemData [] []) "model" "A100" 1
        { PerfParms := { DecodeParms := [("alpha", "10")],
                         PrefillParms := [("gamma", "1"), ("delta", "2")] },
          MaxBatchSize := 4 } = (CreateSystemData [] [], some e)) :=
  ⟨by decide,
   add_profile_rejects_malformed_perf_parms.1 (CreateSystemData [] []) "model" "A100" 1
     { PerfParms := { DecodeParms := [("alpha", "10")],
                      PrefillParms := [("gamma", "1"), ("delta", "2")] },
       MaxBatchSize := 4 }
     (Or.inl (by decide))⟩

/-! ## C10 -/

/-- C10: every error return of the three system-data mutators leaves the
system data completely unchanged — no partial performance-data or server
entry is appended.  (The first-generation server adder has no error path;
the second-generation one fails exactly when the variant has no current
allocations.) -/
theorem system_data_mutations_atomic_on_error :
    (∀ (sd : SystemData) (modelName accelerator : String) (acceleratorCount : Int)
       (vp : V2.VariantProfile) (sd2 : SystemData) (e : String),
       V2.AddVariantProfileToSystemData sd modelName accelerator acceleratorCount vp
         = (sd2, some e) → sd2 = sd) ∧
    (∀ (sd : SystemData) (modelName : String) (ap : V1.AcceleratorProfile)
       (sd2 : SystemData) (e : String),
       V1.AddModelAcceleratorProfileToSystemData sd modelName ap = (sd2, some e) →
       sd2 = sd) ∧
    (∀ (sd : SystemData) (va : V2.VariantAutoscaling) (className envScaleToZero : String)
       (sd2 : SystemData) (e : String),
       V2.AddServerInfoToSystemData sd va className envScaleToZero = (sd2, some e) →
       sd2 = sd) := by
  refine ⟨?_, ?_, ?_⟩
  · intro sd modelName accelerator acceleratorCount vp sd2 e h
    unfold V2.AddVariantProfileToSystemData at h
    cases hx : extractPerfParms vp.PerfParms with
    | error e2 =>
      rw [hx] at h
      simp only [Prod.mk.injEq] at h
      exact h.1.symm
    | ok parms => rw [hx] at h; simp at h
  · intro sd modelName ap sd2 e h
    unfold V1.AddModelAcceleratorProfileToSystemData at h
    cases hx : extractPerfParms ap.PerfParms with
    | error e2 =>
      rw [hx] at h
      simp only [Prod.mk.injEq] at h
      exact h.1.symm
    | ok parms => rw [hx] at h; simp at h
  · intro sd va className envScaleToZero sd2 e h
    unfold V2.AddServerInfoToSystemData at h
    cases hx : va.Status.CurrentAllocs with
    | nil =>
      rw [hx] at h
      simp only [Prod.mk.injEq] at h
      exact h.1.symm
    | cons currentAlloc rest => rw [hx] at h; simp at h

/-- Witness for C10: a variant without current allocations is rejected by the
server adder and the system data comes back unchanged. -/
theorem system_data_mutations_atomic_on_error_witness :
    (V2.AddServerInfoToSystemData (CreateSystemData [] []) vaNoAllocs "premium" "").1
      = CreateSystemData [] [] :=
  system_data_mutations_atomic_on_error.2.2 (CreateSystemData [] []) vaNoAllocs
    "premium" ""
    (V2.AddServerInfoToSystemData (CreateSystemData [] []) vaNoAllocs "premium" "").1
    ("no current allocations found for variant " ++ vaNoAllocs.Name)
    (by decide)

/-! ## C7 -/

/-- The accelerator built from a ConfigMap entry keeps the entry's key as its
name. -/
lemma accelOf_name (kv : String × StrMap) (a : AcceleratorSpec)
    (h : accelOf kv = some a) : a.Name = kv.1 := by
  unfold accelOf at h
  cases hp : parseFloat (mapGet kv.2 "cost") with
  | none => rw [hp] at h; cases h
  | some cost => rw [hp] at h; cases h; rfl

/-- No accelerator named `k` is built from entries whose keys avoid `k`. -/
lemma filter_accel_notmem (l : List (String × StrMap)) (k : String)
    (hk : k ∉ l.map Prod.fst) :
    (l.filterMap accelOf).filter (fun a => a.Name == k) = [] := by
  induction l with
  | nil => rfl
  | cons hd tl ih =>
    simp only [List.map_cons, List.mem_cons, not_or] at hk
    obtain ⟨hne, htl⟩ := hk
    rw [List.filterMap_cons]
    cases h : accelOf hd with
    | none => exact ih htl
    | some a =>
      have hfalse : (a.Name == k) = false := by
        rw [accelOf_name hd a h]
        exact beq_eq_false_iff_ne.mpr (fun hh => hne hh.symm)
      rw [List.filter_cons]
      simp only [hfalse, Bool.false_eq_true, if_false]
      exact ih htl

/-- Counting accelerators built for the key of one configured entry. -/
lemma filterMap_accel_count (l : List (String × StrMap)) (k : String) (v : StrMap)
    (hnodup : (l.map Prod.fst).Nodup) (hmem : (k, v) ∈ l) :
    ((parseFloat (mapGet v "cost")).isSome = true →
      ((l.filterMap accelOf).filter (fun a => a.Name == k)).length = 1) ∧
    (parseFloat (mapGet v "cost") = none →
      ((l.filterMap accelOf).filter (fun a => a.Name == k)).length = 0) := by
  induction l with
  | nil => cases hmem
  | cons hd tl ih =>
    rw [List.map_cons, List.nodup_cons] at hnodup
    obtain ⟨hhd, htl⟩ := hnodup
    rcases List.mem_cons.mp hmem with heq | hmem2
    · subst heq
      constructor
      · intro hsome
        obtain ⟨cost, hcost⟩ := Option.isSome_iff_exists.mp hsome
        have hsel : accelOf (k, v) = some
            { Name := k, Type_ := mapGet v "device", Multiplicity := 1,
              Power := {}, Cost := cost } := by
          unfold accelOf
          rw [hcost]
        rw [List.filterMap_cons, hsel, List.filter_cons]
        simp only [beq_self_eq_true, if_true]
        rw [filter_accel_notmem tl k hhd]
        rfl
      · intro hnone
        have hsel : accelOf (k, v) = none := by
          unfold accelOf
          rw [hnone]
        rw [List.filterMap_cons, hsel, filter_accel_notmem tl k hhd]
        rfl
    · have hk_tl : k ∈ tl.map Prod.fst := List.mem_map_of_mem Prod.fst hmem2
      have hne : hd.1 ≠ k := fun hh => hhd (hh ▸ hk_tl)
      rw [List.filterMap_cons]
      cases h : accelOf hd with
      | none => exact ih htl hmem2
      | some a =>
        have hfalse : (a.Name == k) = false := by
          rw [accelOf_name hd a h]
          exact beq_eq_false_iff_ne.mpr hne
        rw [List.filter_cons]
        simp only [hfalse, Bool.false_eq_true, if_false]
        exact ih htl hmem2

/-- C7: for every accelerator ConfigMap (with distinct keys, as Go maps
have), the built system data has exactly one `AcceleratorSpec` for each
configured accelerator whose cost string parses, and none for an accelerator
whose cost string does not parse; `CreateSystemData` itself is total — it has
no error return. -/
theorem create_system_data_accelerators
    (acceleratorCm : List (String × StrMap))
    (serviceClassCm : List (String × Option ServiceClass))
    (hnodup : (acceleratorCm.map Prod.fst).Nodup)
    (k : String) (v : StrMap) (hmem : (k, v) ∈ acceleratorCm) :
    ((parseFloat (mapGet v "cost")).isSome = true →
      (((CreateSystemData acceleratorCm serviceClassCm).Accelerators.filter
          (fun a => a.Name == k)).length = 1)) ∧
    (parseFloat (mapGet v "cost") = none →
      (((CreateSystemData acceleratorCm serviceClassCm).Accelerators.filter
          (fun a => a.Name == k)).length = 0)) :=
  filterMap_accel_count acceleratorCm k v hnodup hmem

/-- Witness for C7: a parseable-cost accelerator appears once, an
unparseable-cost one is skipped. -/
theorem create_system_data_accelerators_witness :
    (((CreateSystemData accListW []).Accelerators.filter
        (fun a => a.Name == "A100")).length = 1) ∧
    (((CreateSystemData accListW []).Accelerators.filter
        (fun a => a.Name == "BAD")).length = 0) :=
  ⟨(create_system_data_accelerators accListW [] (by decide) "A100"
      [("cost", "40.00"), ("device", "NVIDIA-A100")] (by decide)).1 (by decide),
   (create_system_data_accelerators accListW [] (by decide) "BAD"
      [("cost", "not-a-number"), ("device", "X")] (by decide)).2 (by decide)⟩

/-! ## C8 -/

/-- C8: the minimum-replica floor of a first-generation server entry is 0
when scale-to-zero is enabled for the variant and 1 otherwise, where the
per-variant `EnableScaleToZero` field takes precedence when set and the
global `WVA_SCALE_TO_ZERO` setting (case-insensitive `true`) is the
fallback; the server builder threads exactly this floor into the entry it
appends. -/
theorem min_replicas_floor_scale_to_zero :
    (∀ (va : V1.VariantAutoscaling) (envScaleToZero : String) (b : Bool),
       va.Spec.EnableScaleToZero = some b →
       V1.GetMinNumReplicas va envScaleToZero = if b then 0 else 1) ∧
    (∀ (va : V1.VariantAutoscaling) (envScaleToZero : String),
       va.Spec.EnableScaleToZero = none →
       V1.GetMinNumReplicas va envScaleToZero =
         if V1.equalFold envScaleToZero "true" then 0 else 1) ∧
    (∀ (sd : SystemData) (va : V1.VariantAutoscaling) (className envScaleToZero : String),
       ∃ srv, (V1.AddServerInfoToSystemData sd va className envScaleToZero).1.Servers =
           sd.Servers ++ [srv] ∧
         srv.MinNumReplicas = V1.GetMinNumReplicas va envScaleToZero) := by
  refine ⟨?_, ?_, ?_⟩
  · intro va env b h
    unfold V1.GetMinNumReplicas V1.IsScaleToZeroEnabled
    rw [h]
  · intro va env h
    unfold V1.GetMinNumReplicas V1.IsScaleToZeroEnabled
    rw [h]
  · intro sd va className env
    exact ⟨V1.mkServerSpec va className env, rfl, rfl⟩

/-- Witness for C8: a per-variant `EnableScaleToZero = false` overrides a
global `true`, and an unset per-variant field falls back to the (case-
insensitive) global setting. -/
theorem min_replicas_floor_scale_to_zero_witness :
    V1.GetMinNumReplicas vaV1Override "true" = 1 ∧
    V1.GetMinNumReplicas vaV1Fallback "TRUE" = 0 := by
  constructor
  · have h := min_replicas_floor_scale_to_zero.1 vaV1Override "true" false (by decide)
    simpa using h
  · have h := min_replicas_floor_scale_to_zero.2.1 vaV1Fallback "TRUE" (by decide)
    rw [h]
    decide

/-! ## C2 (corrected) -/

/-- Counterexample to C2 as stated: two runs of `Optimize` on the same
generated solution and variant list, at different wall-clock instants, do not
yield byte-identical optimized allocations — `CreateOptimizedAlloc` stamps
the run time into `LastRunTime`. -/
theorem optimize_rerun_not_identical_cex :
    Optimize none (some [(FullName "vllm" "default", adSample)]) [vaSample] 0 ≠
    Optimize none (some [(FullName "vllm" "default", adSample)]) [vaSample] 1 := by
  decide

/-- Inserting timestamp-equivalent allocations into timestamp-equivalent maps
yields timestamp-equivalent maps. -/
lemma coreOfMap_goMapInsert (m1 m2 : List (String × OptimizedAlloc)) (k : String)
    (v1 v2 : OptimizedAlloc) (hm : coreOfMap m1 = coreOfMap m2)
    (hv : coreOfAlloc v1 = coreOfAlloc v2) :
    coreOfMap (goMapInsert m1 k v1) = coreOfMap (goMapInsert m2 k v2) := by
  induction m1 generalizing m2 with
  | nil =>
    cases m2 with
    | nil => simp [goMapInsert, coreOfMap, hv]
    | cons q r => simp [coreOfMap] at hm
  | cons p r1 ih =>
    cases m2 with
    | nil => simp [coreOfMap] at hm
    | cons q r2 =>
      simp only [coreOfMap, List.map_cons, List.cons.injEq, Prod.mk.injEq] at hm
      obtain ⟨⟨hk, hcore⟩, htail⟩ := hm
      simp only [goMapInsert]
      by_cases hpk : (p.1 == k) = true
      · have hqk : (q.1 == k) = true := by rw [← hk]; exact hpk
        rw [if_pos hpk, if_pos hqk]
        simp only [coreOfMap, List.map_cons, List.cons.injEq, Prod.mk.injEq]
        exact ⟨⟨by trivial, hv⟩, htail⟩
      · have hqk : ¬((q.1 == k) = true) := by rw [← hk]; exact hpk
        rw [if_neg hpk, if_neg hqk]
        simp only [coreOfMap, List.map_cons, List.cons.injEq, Prod.mk.injEq]
        exact ⟨⟨hk, hcore⟩, ih r2 htail⟩

/-- The optimizer loop is timestamp-independent up to `LastRunTime`. -/
lemma optimizeLoop_core (sol : AllocationSolution) (l : List V2.VariantAutoscaling)
    (n1 n2 : Int) :
    ∀ m1 m2, coreOfMap m1 = coreOfMap m2 →
      coreOfMap (optimizeLoop sol n1 l m1) = coreOfMap (optimizeLoop sol n2 l m2) := by
  induction l with
  | nil =>
    intro m1 m2 h
    simpa [optimizeLoop] using h
  | cons va rest ih =>
    intro m1 m2 h
    simp only [optimizeLoop, CreateOptimizedAlloc]
    cases hfind : solutionFind sol (FullName va.Name va.Namespace) with
    | none => exact ih _ _ h
    | some ad => exact ih _ _ (coreOfMap_goMapInsert _ _ _ _ _ h rfl)

/-- C2 amended: given the same manager outcome, generated solution and
variant list, two runs of `Optimize` at different wall-clock instants agree
on the error value and on every entry of the optimized-allocation map except
its `LastRunTime` timestamp, which records the time of each run (so the full
values are not byte-identical, as the counterexample shows). -/
theorem optimize_rerun_identical_up_to_timestamp
    (managerErr : Option String) (allocationSolution : Option AllocationSolution)
    (vaList : List V2.VariantAutoscaling) (now1 now2 : Int) :
    coreOfResult (Optimize managerErr allocationSolution vaList now1) =
    coreOfResult (Optimize managerErr allocationSolution vaList now2) := by
  cases managerErr with
  | some e => rfl
  | none =>
    cases allocationSolution with
    | none => rfl
    | some sol =>
      by_cases h : sol.length = 0
      · simp [Optimize, h]
      · have hcore := optimizeLoop_core sol vaList now1 now2 [] [] rfl
        simp [Optimize, h, coreOfResult, hcore]

end WVA
